import Mathlib

/-!
Shallow embedding of the Tetris grid state machine of `src/main.py`
(class `Grid`).  Board cells hold `0` (Empty), `1` (Active), `2` (Locked).
Pieces are rectangular boolean masks.  Where the source calls
`random.choice(SHAPES_LIST)` the embedding takes the chosen shape as an
explicit argument, so every operation is a pure function on `Grid`.
-/

namespace Tetris

/-- A piece mask: a list of rows of occupancy flags. -/
abbrev Shape := List (List Bool)

/-- The constant table `self.points_granted = [40, 100, 300, 1200]` set in
`Grid.__init__` and never mutated. -/
def points_granted : List Nat := [40, 100, 300, 1200]

/-- State of the game grid: the fields of the Python `Grid` object. -/
structure Grid where
  game_over : Bool
  score : Nat
  fall_speed_mult : Int
  frame_counter : Nat
  width : Nat
  height : Nat
  speed : ℚ
  grid_list : List (List Nat)
  current_shape : Option Shape
  next_shape : Shape
  current_shape_location : Int × Int
  deriving DecidableEq

/-- Construction (`Grid.__init__`): empty `height × width` board, score 0,
`game_over = False`, frame counter 0, fall multiplier 1; the primed next
shape (the source's `random.choice`) is passed in. -/
def Grid.init (width height : Nat) (speed : ℚ) (first_next : Shape) : Grid :=
  { game_over := false
    score := 0
    fall_speed_mult := 1
    frame_counter := 0
    width := width
    height := height
    speed := speed
    grid_list := List.replicate height (List.replicate width 0)
    current_shape := none
    next_shape := first_next
    current_shape_location := (0, 0) }

/-- Value of the board cell at row `i`, column `j` (natural indices);
out-of-range reads default to `0`.  The source indexes `grid_list[row][col]`
only after an explicit bounds check, where the two coincide. -/
def cellAt (g : Grid) (i j : Nat) : Nat :=
  (g.grid_list.getD i []).getD j 0

/-- Method `update_cells`: write `value` at `(row, col)` when
`width > col >= 0 and height > row >= 0`, otherwise do nothing. -/
def update_cells (g : Grid) (row col : Int) (value : Nat) : Grid :=
  if 0 ≤ col ∧ col < (g.width : Int) ∧ 0 ≤ row ∧ row < (g.height : Int) then
    { g with grid_list :=
        (g.grid_list.set row.toNat
          ((g.grid_list.getD row.toNat []).set col.toNat value)) }
  else g

/-- The `shape_coords` comprehension shared by `draw_shape` and `can_move`:
absolute board coordinates `(i + row, j + col)` of every occupied mask
cell. -/
def shape_coords (shape : Shape) (row col : Int) : List (Int × Int) :=
  (shape.enum.map (fun p =>
    p.2.enum.filterMap (fun q =>
      if q.2 then some ((p.1 : Int) + row, (q.1 : Int) + col) else none))).flatten

/-- Write `value` through `update_cells` at every coordinate of the list, in
order (the loop body of `draw_shape`). -/
def drawList (g : Grid) (coords : List (Int × Int)) (value : Nat) : Grid :=
  coords.foldl (fun acc rc => update_cells acc rc.1 rc.2 value) g

/-- Method `draw_shape`: write `value` at every occupied cell of `shape`
anchored at `(row, col)`. -/
def draw_shape (g : Grid) (shape : Shape) (row col : Int) (value : Nat) : Grid :=
  drawList g (shape_coords shape row col) value

/-- Method `can_move`, the collision oracle: `False` as soon as some occupied
cell of `shape` at `new_pos` is out of bounds or lands on a cell holding `2`;
`True` otherwise.  A pure function: it returns a `Bool` and touches no
state. -/
def can_move (g : Grid) (shape : Shape) (new_pos : Int × Int) : Bool :=
  (shape_coords shape new_pos.1 new_pos.2).all (fun rc =>
    decide (0 ≤ rc.2) && decide (rc.2 < (g.width : Int)) &&
    decide (0 ≤ rc.1) && decide (rc.1 < (g.height : Int)) &&
    (cellAt g rc.1.toNat rc.2.toNat != 2))

/-- The committed-move sequence shared by `move_down`, `move_down_on_key` and
`move_side`: erase the footprint at the current anchor (value `0`), update
the anchor, redraw the footprint (value `1`). -/
def apply_move (g : Grid) (shape : Shape) (new_position : Int × Int) : Grid :=
  let g1 := draw_shape g shape
    g.current_shape_location.1 g.current_shape_location.2 0
  let g2 := { g1 with current_shape_location := new_position }
  draw_shape g2 shape new_position.1 new_position.2 1

/-- Numpy's `rot90` on a rectangular mask: `result[i][j] = s[j][C-1-i]` where
`C` is the column count of `s` (a 90 degree counterclockwise rotation). -/
def rot90 (s : Shape) : Shape :=
  (List.range (s.headD []).length).map (fun i =>
    s.map (fun row => row.getD ((s.headD []).length - 1 - i) false))

/-- The completeness test of the clearing pass, the source's
`sum(row) == self.width * 2`. -/
def isCompleteB (width : Nat) (row : List Nat) : Bool :=
  row.sum == width * 2

/-- An all-Empty row, the source's `[0 for _ in range(self.width)]`. -/
def emptyRow (width : Nat) : List Nat := List.replicate width 0

/-- The single mutating pass of `row_is_complete`, modelling Python's
`for i, row in enumerate(self.grid_list)` over a list mutated in place: step
`i` reads the CURRENT list at index `i`; a row summing to `width*2` is
deleted and an all-zero row is inserted at index 0 (the length never
changes, so the iterator still visits each original index once).  `fuel` is
the (invariant) list length; `acc` counts cleared rows. -/
def clearLoop (width : Nat) : Nat → Nat → List (List Nat) → Nat → List (List Nat) × Nat
  | 0, _, rows, acc => (rows, acc)
  | fuel + 1, i, rows, acc =>
    match rows.get? i with
    | none => (rows, acc)
    | some row =>
      if isCompleteB width row then
        clearLoop width fuel (i + 1)
          (emptyRow width :: rows.eraseIdx i) (acc + 1)
      else
        clearLoop width fuel (i + 1) rows acc

/-- Method `row_is_complete`: run the clearing pass; if any row was cleared,
add `points_granted[num_completed - 1]` to the score and multiply the speed
by `0.95`, once. -/
def row_is_complete (g : Grid) : Grid :=
  let res := clearLoop g.width g.grid_list.length 0 g.grid_list 0
  if res.2 ≠ 0 then
    { g with grid_list := res.1
             score := g.score + points_granted.getD (res.2 - 1) 0
             speed := g.speed * (0.95 : ℚ) }
  else
    { g with grid_list := res.1 }

/-- The spawn anchor of `new_shape`: `(0, width // 2 - len(shape[0]) // 2)`
with Python floor division on non-negative operands. -/
def spawn_anchor (g : Grid) (shape : Shape) : Int × Int :=
  (0, (g.width : Int) / 2 - ((shape.headD []).length : Int) / 2)

/-- Method `new_shape`: install `shape` as the current piece at the spawn
anchor; if the oracle rejects that placement, set `game_over` and drop the
piece.  Nothing here writes to the board. -/
def new_shape (g : Grid) (shape : Shape) : Grid :=
  let g1 := { g with current_shape := some shape
                     current_shape_location := spawn_anchor g shape }
  if can_move g1 shape g1.current_shape_location then g1
  else { g1 with game_over := true, current_shape := none }

/-- The part of `lock_shape` before its `new_shape` call: draw the current
footprint with value `2`, run `row_is_complete`, clear the current piece and
refill the next-piece slot with the injected random choice `rand`.  (The
source would raise if `current_shape` were `None`; `lock_shape` is only ever
invoked with a live piece, and the embedding skips the draw in that
unreachable case.) -/
def lock_pre (g : Grid) (rand : Shape) : Grid :=
  let g1 := match g.current_shape with
    | some sh => draw_shape g sh
        g.current_shape_location.1 g.current_shape_location.2 2
    | none => g
  let g2 := row_is_complete g1
  { g2 with current_shape := none, next_shape := rand }

/-- Method `lock_shape`: lock the footprint, clear lines, then promote the
stored next shape via `new_shape` (the local `new_shape = self.next_shape`
is captured before the slot is refilled with `rand`). -/
def lock_shape (g : Grid) (rand : Shape) : Grid :=
  new_shape (lock_pre g rand) g.next_shape

/-- Method `move_side`: move the piece horizontally by `side` (1 right,
-1 left) when the oracle allows it; otherwise change nothing.  Python's
`if not self.current_shape: return` is falsy for both `None` and `[]`. -/
def move_side (g : Grid) (side : Int) : Grid :=
  match g.current_shape with
  | none => g
  | some shape =>
    if shape.isEmpty then g
    else
      let new_position :=
        (g.current_shape_location.1, g.current_shape_location.2 + side)
      if can_move g shape new_position then apply_move g shape new_position
      else g

/-- Method `move_down_on_key` (soft drop): one extra single-row downward move
when the oracle allows it; otherwise change nothing. -/
def move_down_on_key (g : Grid) : Grid :=
  match g.current_shape with
  | none => g
  | some shape =>
    if shape.isEmpty then g
    else
      let new_position :=
        (g.current_shape_location.1 + 1, g.current_shape_location.2)
      if can_move g shape new_position then apply_move g shape new_position
      else g

/-- Method `rotate`: try the 90-degree-rotated mask at the SAME anchor; if
the oracle allows it, erase, swap the mask, redraw; otherwise change
nothing. -/
def rotate (g : Grid) : Grid :=
  match g.current_shape with
  | none => g
  | some shape =>
    if shape.isEmpty then g
    else
      let rotated := rot90 shape
      if can_move g rotated g.current_shape_location then
        let g1 := draw_shape g shape
          g.current_shape_location.1 g.current_shape_location.2 0
        let g2 := { g1 with current_shape := some rotated }
        draw_shape g2 rotated
          g2.current_shape_location.1 g2.current_shape_location.2 1
      else g

/-- Method `move_down`, the gravity tick: always increment `frame_counter`;
return at once when there is no (truthy) current shape.  On a gated tick
(`frame_counter % 16 == 0` after the increment) try the
`fall_speed_mult`-row move, fall back to a single-row move, and lock when
both are blocked; on a non-gated tick just redraw the footprint in place. -/
def move_down (g : Grid) (rand : Shape) : Grid :=
  let g0 := { g with frame_counter := g.frame_counter + 1 }
  match g0.current_shape with
  | none => g0
  | some shape =>
    if shape.isEmpty then g0
    else
      let new_position : Int × Int :=
        (g0.current_shape_location.1 + g0.fall_speed_mult,
         g0.current_shape_location.2)
      if g0.frame_counter % 16 = 0 then
        if can_move g0 shape new_position then apply_move g0 shape new_position
        else
          let new_position2 : Int × Int :=
            (g0.current_shape_location.1 + 1, g0.current_shape_location.2)
          if can_move g0 shape new_position2 then
            apply_move g0 shape new_position2
          else lock_shape g0 rand
      else
        draw_shape g0 shape
          g0.current_shape_location.1 g0.current_shape_location.2 1

/-- Dimension invariant: the board has exactly `height` rows of exactly
`width` cells each. -/
def dims (g : Grid) : Prop :=
  g.grid_list.length = g.height ∧ ∀ row ∈ g.grid_list, row.length = g.width

theorem get?_append_cons_len (pre rest : List α) (r : α) :
    (pre ++ r :: rest).get? pre.length = some r := by
  induction pre with
  | nil => rfl
  | cons a pre ih => simpa using ih

theorem eraseIdx_append_cons_len (pre rest : List α) (r : α) :
    (pre ++ r :: rest).eraseIdx pre.length = pre ++ rest := by
  induction pre with
  | nil => rfl
  | cons a pre ih => simpa [List.eraseIdx] using ih

/-- Invariant of the in-place clearing loop: starting at index `pre.length`
of `pre ++ suf`, the loop removes exactly the rows of `suf` whose sum is
`width * 2`, pushes one all-zero row to the front for each, and leaves the
other rows of `suf` in order after `pre`. -/
theorem clearLoop_spec (width : Nat) :
    ∀ (fuel : Nat) (pre suf : List (List Nat)) (acc : Nat),
      suf.length ≤ fuel →
      clearLoop width fuel pre.length (pre ++ suf) acc =
        (List.replicate (suf.countP (fun r => isCompleteB width r)) (emptyRow width) ++
           pre ++ suf.filter (fun r => !isCompleteB width r),
         acc + suf.countP (fun r => isCompleteB width r)) := by
  intro fuel
  induction fuel with
  | zero =>
    intro pre suf acc h
    have hs : suf = [] := List.eq_nil_of_length_eq_zero (Nat.le_zero.mp h)
    subst hs
    simp [clearLoop]
  | succ n ih =>
    intro pre suf acc h
    cases suf with
    | nil => simp [clearLoop]
    | cons r rest =>
      rw [clearLoop, get?_append_cons_len]
      dsimp only
      by_cases hc : isCompleteB width r
      · rw [if_pos hc, eraseIdx_append_cons_len]
        have step := ih (emptyRow width :: pre) rest (acc + 1)
          (by simpa using Nat.le_of_succ_le_succ h)
        simp only [List.length_cons] at step
        rw [show (emptyRow width :: pre) ++ rest = emptyRow width :: (pre ++ rest) by simp] at step
        rw [step]
        simp only [Prod.mk.injEq]
        constructor
        · simp [List.countP_cons, hc, List.filter_cons, List.replicate_succ',
            List.append_assoc]
        · simp [List.countP_cons, hc]
          omega
      · rw [if_neg hc]
        have step := ih (pre ++ [r]) rest acc
          (by simpa using Nat.le_of_succ_le_succ h)
        simp only [List.length_append, List.length_cons, List.length_nil] at step
        rw [List.append_assoc] at step
        simp only [List.singleton_append] at step
        rw [step]
        simp only [Prod.mk.injEq]
        constructor
        · simp [List.countP_cons, hc, List.filter_cons, List.append_assoc]
        · simp [List.countP_cons, hc]

/-- The clearing pass on the whole board: specialization of
`clearLoop_spec` to the call made by `row_is_complete`. -/
theorem clearLoop_eq (width : Nat) (rows : List (List Nat)) :
    clearLoop width rows.length 0 rows 0 =
      (List.replicate (rows.countP (fun r => isCompleteB width r)) (emptyRow width) ++
         rows.filter (fun r => !isCompleteB width r),
       rows.countP (fun r => isCompleteB width r)) := by
  have h := clearLoop_spec width rows.length [] rows 0 (Nat.le_refl _)
  simpa using h

/-- The grid-list part of `update_cells`, as a function of the board fields
alone. -/
def updateGL (width height : Nat) (gl : List (List Nat)) (r c : Int) (v : Nat) :
    List (List Nat) :=
  if 0 ≤ c ∧ c < (width : Int) ∧ 0 ≤ r ∧ r < (height : Int) then
    gl.set r.toNat ((gl.getD r.toNat []).set c.toNat v)
  else gl

/-- The grid-list part of `drawList`. -/
def drawGL (width height : Nat) (gl : List (List Nat)) (coords : List (Int × Int))
    (v : Nat) : List (List Nat) :=
  coords.foldl (fun acc rc => updateGL width height acc rc.1 rc.2 v) gl

/-- Board cell of a raw grid list. -/
def cellGL (gl : List (List Nat)) (i j : Nat) : Nat :=
  (gl.getD i []).getD j 0

/-- Dimension invariant of a raw grid list. -/
def dimsGL (width height : Nat) (gl : List (List Nat)) : Prop :=
  gl.length = height ∧ ∀ row ∈ gl, row.length = width

theorem update_cells_eq (g : Grid) (r c : Int) (v : Nat) :
    update_cells g r c v =
      { g with grid_list := updateGL g.width g.height g.grid_list r c v } := by
  unfold update_cells updateGL
  split
  · rfl
  · rfl

theorem drawList_eq (g : Grid) (coords : List (Int × Int)) (v : Nat) :
    drawList g coords v =
      { g with grid_list := drawGL g.width g.height g.grid_list coords v } := by
  induction coords generalizing g with
  | nil => rfl
  | cons rc rest ih =>
    show drawList (update_cells g rc.1 rc.2 v) rest v = _
    rw [ih, update_cells_eq]
    rfl

theorem draw_shape_eq (g : Grid) (shape : Shape) (row col : Int) (v : Nat) :
    draw_shape g shape row col v =
      { g with grid_list :=
          drawGL g.width g.height g.grid_list (shape_coords shape row col) v } :=
  drawList_eq g (shape_coords shape row col) v

theorem getD_set_self {α : Type} (l : List α) (i : Nat) (a d : α)
    (h : i < l.length) : (l.set i a).getD i d = a := by
  rw [List.getD_eq_getElem (l.set i a) d (by simpa using h)]
  exact List.getElem_set_self (by simpa using h)

theorem getD_set_ne {α : Type} (l : List α) (i k : Nat) (a d : α)
    (h : i ≠ k) : (l.set i a).getD k d = l.getD k d := by
  rcases Nat.lt_or_ge k l.length with hk | hk
  · rw [List.getD_eq_getElem (l.set i a) d (by simpa using hk),
      List.getElem_set_ne h, List.getD_eq_getElem l d hk]
  · rw [List.getD_eq_default _ _ (by simpa using hk),
      List.getD_eq_default _ _ hk]

theorem getD_mem {α : Type} (l : List α) (i : Nat) (d : α) (h : i < l.length) :
    l.getD i d ∈ l := by
  rw [List.getD_eq_getElem l d h]
  exact List.getElem_mem h

theorem updateGL_dims {width height : Nat} {gl : List (List Nat)} (r c : Int)
    (v : Nat) (hd : dimsGL width height gl) :
    dimsGL width height (updateGL width height gl r c v) := by
  have h1 := hd.1
  unfold updateGL
  by_cases hcond : 0 ≤ c ∧ c < (width : Int) ∧ 0 ≤ r ∧ r < (height : Int)
  · rw [if_pos hcond]
    refine ⟨by simpa using hd.1, ?_⟩
    intro row hrow
    rcases List.mem_or_eq_of_mem_set hrow with h | h
    · exact hd.2 row h
    · subst h
      have hr : r.toNat < gl.length := by omega
      have hm := getD_mem gl r.toNat [] hr
      simpa using hd.2 _ hm
  · rw [if_neg hcond]
    exact hd

theorem drawGL_dims {width height : Nat} {gl : List (List Nat)}
    (coords : List (Int × Int)) (v : Nat) (hd : dimsGL width height gl) :
    dimsGL width height (drawGL width height gl coords v) := by
  induction coords generalizing gl with
  | nil => exact hd
  | cons rc rest ih => exact ih (updateGL_dims rc.1 rc.2 v hd)

theorem cellGL_out {width height : Nat} {gl : List (List Nat)}
    (hd : dimsGL width height gl) {i j : Nat} (h : height ≤ i ∨ width ≤ j) :
    cellGL gl i j = 0 := by
  have h1 := hd.1
  unfold cellGL
  rcases h with h | h
  · rw [show List.getD gl i [] = [] from List.getD_eq_default gl [] (by omega)]
    simp
  · by_cases hi : i < gl.length
    · have h2 := hd.2 _ (getD_mem gl i [] hi)
      exact List.getD_eq_default _ _ (by omega)
    · rw [show List.getD gl i [] = [] from
        List.getD_eq_default gl [] (Nat.le_of_not_lt hi)]
      simp

theorem cellGL_updateGL {width height : Nat} {gl : List (List Nat)}
    (hd : dimsGL width height gl) (r c : Int) (v : Nat) {i j : Nat}
    (hi : i < height) (hj : j < width) :
    cellGL (updateGL width height gl r c v) i j =
      if r = (i : Int) ∧ c = (j : Int) then v else cellGL gl i j := by
  have h1 := hd.1
  unfold updateGL cellGL
  by_cases hcond : 0 ≤ c ∧ c < (width : Int) ∧ 0 ≤ r ∧ r < (height : Int)
  · rw [if_pos hcond]
    by_cases heq : r = (i : Int) ∧ c = (j : Int)
    · rw [if_pos heq]
      have hri : r.toNat = i := by omega
      have hcj : c.toNat = j := by omega
      have hilen : i < gl.length := by omega
      have hrowlen : (gl.getD i []).length = width :=
        hd.2 _ (getD_mem gl i [] hilen)
      rw [hri, hcj, getD_set_self gl i _ [] hilen,
        getD_set_self (gl.getD i []) j v 0 (by omega)]
    · rw [if_neg heq]
      by_cases hri : r.toNat = i
      · have hcj : c.toNat ≠ j := by omega
        have hilen : i < gl.length := by omega
        rw [hri, getD_set_self gl i _ [] hilen,
          getD_set_ne (gl.getD i []) c.toNat j v 0 hcj]
      · rw [getD_set_ne gl r.toNat i _ [] hri]
  · rw [if_neg hcond]
    have hne : ¬(r = (i : Int) ∧ c = (j : Int)) := by omega
    rw [if_neg hne]

theorem row_is_complete_eq (g : Grid) :
    row_is_complete g =
      if g.grid_list.countP (fun r => isCompleteB g.width r) ≠ 0 then
        { g with
          grid_list :=
            List.replicate (g.grid_list.countP (fun r => isCompleteB g.width r))
                (emptyRow g.width) ++
              g.grid_list.filter (fun r => !isCompleteB g.width r)
          score := g.score + points_granted.getD
            (g.grid_list.countP (fun r => isCompleteB g.width r) - 1) 0
          speed := g.speed * (0.95 : ℚ) }
      else
        { g with
          grid_list :=
            List.replicate (g.grid_list.countP (fun r => isCompleteB g.width r))
                (emptyRow g.width) ++
              g.grid_list.filter (fun r => !isCompleteB g.width r) } := by
  unfold row_is_complete
  rw [clearLoop_eq]

theorem row_is_complete_grid (g : Grid) :
    (row_is_complete g).grid_list =
      List.replicate (g.grid_list.countP (fun r => isCompleteB g.width r))
          (emptyRow g.width) ++
        g.grid_list.filter (fun r => !isCompleteB g.width r) := by
  rw [row_is_complete_eq]
  by_cases h : g.grid_list.countP (fun r => isCompleteB g.width r) ≠ 0
  · rw [if_pos h]
  · rw [if_neg h]

theorem row_is_complete_score (g : Grid) :
    (row_is_complete g).score =
      if g.grid_list.countP (fun r => isCompleteB g.width r) ≠ 0 then
        g.score + points_granted.getD
          (g.grid_list.countP (fun r => isCompleteB g.width r) - 1) 0
      else g.score := by
  rw [row_is_complete_eq]
  by_cases h : g.grid_list.countP (fun r => isCompleteB g.width r) ≠ 0
  · rw [if_pos h, if_pos h]
  · rw [if_neg h, if_neg h]

theorem row_is_complete_speed (g : Grid) :
    (row_is_complete g).speed =
      if g.grid_list.countP (fun r => isCompleteB g.width r) ≠ 0 then
        g.speed * (0.95 : ℚ)
      else g.speed := by
  rw [row_is_complete_eq]
  by_cases h : g.grid_list.countP (fun r => isCompleteB g.width r) ≠ 0
  · rw [if_pos h, if_pos h]
  · rw [if_neg h, if_neg h]

theorem row_is_complete_shell (g : Grid) :
    (row_is_complete g).game_over = g.game_over ∧
    (row_is_complete g).width = g.width ∧
    (row_is_complete g).height = g.height ∧
    (row_is_complete g).current_shape = g.current_shape ∧
    (row_is_complete g).next_shape = g.next_shape ∧
    (row_is_complete g).current_shape_location = g.current_shape_location ∧
    (row_is_complete g).frame_counter = g.frame_counter ∧
    (row_is_complete g).fall_speed_mult = g.fall_speed_mult := by
  rw [row_is_complete_eq]
  by_cases h : g.grid_list.countP (fun r => isCompleteB g.width r) ≠ 0
  · rw [if_pos h]
    exact ⟨rfl, rfl, rfl, rfl, rfl, rfl, rfl, rfl⟩
  · rw [if_neg h]
    exact ⟨rfl, rfl, rfl, rfl, rfl, rfl, rfl, rfl⟩

/-- Unfolding of the collision oracle into a universally quantified
condition on the footprint coordinates. -/
theorem can_move_true_iff (g : Grid) (shape : Shape) (new_pos : Int × Int) :
    can_move g shape new_pos = true ↔
      ∀ rc ∈ shape_coords shape new_pos.1 new_pos.2,
        (0 ≤ rc.2 ∧ rc.2 < (g.width : Int) ∧ 0 ≤ rc.1 ∧ rc.1 < (g.height : Int)) ∧
        cellAt g rc.1.toNat rc.2.toNat ≠ 2 := by
  unfold can_move
  rw [List.all_eq_true]
  constructor
  · intro h rc hrc
    have := h rc hrc
    simp only [Bool.and_eq_true, decide_eq_true_eq, bne_iff_ne, ne_eq] at this
    exact ⟨⟨this.1.1.1.1, this.1.1.1.2, this.1.1.2, this.1.2⟩, this.2⟩
  · intro h rc hrc
    have := h rc hrc
    simp only [Bool.and_eq_true, decide_eq_true_eq, bne_iff_ne, ne_eq]
    exact ⟨⟨⟨⟨this.1.1, this.1.2.1⟩, this.1.2.2.1⟩, this.1.2.2.2⟩, this.2⟩

theorem new_shape_eq (g : Grid) (shape : Shape) :
    new_shape g shape =
      if can_move g shape (spawn_anchor g shape) then
        { g with current_shape := some shape
                 current_shape_location := spawn_anchor g shape }
      else
        { g with game_over := true
                 current_shape := none
                 current_shape_location := spawn_anchor g shape } := rfl

theorem new_shape_grid (g : Grid) (shape : Shape) :
    (new_shape g shape).grid_list = g.grid_list := by
  rw [new_shape_eq]
  by_cases h : can_move g shape (spawn_anchor g shape) = true
  · rw [if_pos h]
  · rw [if_neg (by simpa using h)]

theorem new_shape_shell (g : Grid) (shape : Shape) :
    (new_shape g shape).width = g.width ∧
    (new_shape g shape).height = g.height ∧
    (new_shape g shape).score = g.score ∧
    (new_shape g shape).speed = g.speed ∧
    (new_shape g shape).next_shape = g.next_shape ∧
    (new_shape g shape).frame_counter = g.frame_counter ∧
    (new_shape g shape).fall_speed_mult = g.fall_speed_mult ∧
    (new_shape g shape).current_shape_location = spawn_anchor g shape := by
  rw [new_shape_eq]
  by_cases h : can_move g shape (spawn_anchor g shape) = true
  · rw [if_pos h]
    exact ⟨rfl, rfl, rfl, rfl, rfl, rfl, rfl, rfl⟩
  · rw [if_neg (by simpa using h)]
    exact ⟨rfl, rfl, rfl, rfl, rfl, rfl, rfl, rfl⟩

theorem new_shape_cases (g : Grid) (shape : Shape) :
    (can_move g shape (spawn_anchor g shape) = true ∧
       new_shape g shape =
         { g with current_shape := some shape
                  current_shape_location := spawn_anchor g shape }) ∨
    (can_move g shape (spawn_anchor g shape) = false ∧
       new_shape g shape =
         { g with game_over := true
                  current_shape := none
                  current_shape_location := spawn_anchor g shape }) := by
  rw [new_shape_eq]
  by_cases h : can_move g shape (spawn_anchor g shape) = true
  · left
    exact ⟨h, by rw [if_pos h]⟩
  · right
    exact ⟨by simpa using h, by rw [if_neg (by simpa using h)]⟩

theorem can_move_congr {g g' : Grid} (h1 : g'.width = g.width)
    (h2 : g'.height = g.height) (h3 : g'.grid_list = g.grid_list)
    (shape : Shape) (pos : Int × Int) :
    can_move g' shape pos = can_move g shape pos := by
  unfold can_move cellAt
  rw [h1, h2, h3]

theorem apply_move_eq (g : Grid) (shape : Shape) (p : Int × Int) :
    apply_move g shape p =
      { g with
        current_shape_location := p
        grid_list :=
          drawGL g.width g.height
            (drawGL g.width g.height g.grid_list
              (shape_coords shape g.current_shape_location.1
                g.current_shape_location.2) 0)
            (shape_coords shape p.1 p.2) 1 } := by
  unfold apply_move draw_shape
  rw [drawList_eq, drawList_eq]

theorem rotate_commit_eq (g : Grid) (shape : Shape) :
    (let g1 := draw_shape g shape
       g.current_shape_location.1 g.current_shape_location.2 0
     let g2 := { g1 with current_shape := some (rot90 shape) }
     draw_shape g2 (rot90 shape)
       g2.current_shape_location.1 g2.current_shape_location.2 1) =
      { g with
        current_shape := some (rot90 shape)
        grid_list :=
          drawGL g.width g.height
            (drawGL g.width g.height g.grid_list
              (shape_coords shape g.current_shape_location.1
                g.current_shape_location.2) 0)
            (shape_coords (rot90 shape) g.current_shape_location.1
              g.current_shape_location.2) 1 } := by
  unfold draw_shape
  rw [drawList_eq, drawList_eq]

theorem move_side_blocked (g : Grid) (sh : Shape) (side : Int)
    (hsh : g.current_shape = some sh)
    (hcm : can_move g sh
      (g.current_shape_location.1, g.current_shape_location.2 + side) = false) :
    move_side g side = g := by
  unfold move_side
  rw [hsh]
  dsimp only
  by_cases he : sh.isEmpty = true
  · rw [if_pos he]
  · rw [if_neg he, if_neg (by simp [hcm])]

theorem rotate_blocked (g : Grid) (sh : Shape)
    (hsh : g.current_shape = some sh)
    (hcm : can_move g (rot90 sh) g.current_shape_location = false) :
    rotate g = g := by
  unfold rotate
  rw [hsh]
  dsimp only
  by_cases he : sh.isEmpty = true
  · rw [if_pos he]
  · rw [if_neg he, if_neg (by simp [hcm])]

theorem countP_add_length_filter_not {α : Type} (p : α → Bool) (l : List α) :
    l.countP p + (l.filter (fun a => !p a)).length = l.length := by
  induction l with
  | nil => rfl
  | cons a l ih =>
    rw [List.countP_cons, List.filter_cons]
    by_cases h : p a = true
    · rw [if_pos h, if_neg (by simp [h])]
      simp only [List.length_cons]
      omega
    · rw [if_neg h, if_pos (show (!p a) = true by simp [h])]
      simp only [List.length_cons]
      omega

theorem clear_dims {width height : Nat} {gl : List (List Nat)}
    (hd : dimsGL width height gl) :
    dimsGL width height
      (List.replicate (gl.countP (fun r => isCompleteB width r)) (emptyRow width) ++
        gl.filter (fun r => !isCompleteB width r)) := by
  constructor
  · rw [List.length_append, List.length_replicate]
    rw [countP_add_length_filter_not (fun r => isCompleteB width r) gl]
    exact hd.1
  · intro row hrow
    rcases List.mem_append.mp hrow with h | h
    · rw [List.eq_of_mem_replicate h]
      simp [emptyRow]
    · exact hd.2 _ (List.mem_of_mem_filter h)

theorem row_is_complete_dims (g : Grid) (hd : dims g) :
    dims (row_is_complete g) := by
  have h1 := (row_is_complete_shell g).2.1
  have h2 := (row_is_complete_shell g).2.2.1
  have h3 := row_is_complete_grid g
  unfold dims at *
  rw [h1, h2, h3]
  exact clear_dims hd

theorem move_side_shell (g : Grid) (side : Int) :
    (move_side g side).game_over = g.game_over ∧
    (move_side g side).width = g.width ∧
    (move_side g side).height = g.height ∧
    (move_side g side).score = g.score ∧
    (move_side g side).speed = g.speed ∧
    (move_side g side).current_shape = g.current_shape ∧
    (move_side g side).next_shape = g.next_shape ∧
    (move_side g side).frame_counter = g.frame_counter := by
  unfold move_side
  cases hcs : g.current_shape with
  | none => exact ⟨rfl, rfl, rfl, rfl, rfl, hcs, rfl, rfl⟩
  | some sh =>
    dsimp only
    by_cases he : sh.isEmpty = true
    · rw [if_pos he]
      exact ⟨rfl, rfl, rfl, rfl, rfl, hcs, rfl, rfl⟩
    · rw [if_neg he]
      by_cases hc : can_move g sh
          (g.current_shape_location.1, g.current_shape_location.2 + side) = true
      · rw [if_pos hc, apply_move_eq]
        exact ⟨rfl, rfl, rfl, rfl, rfl, hcs, rfl, rfl⟩
      · rw [if_neg hc]
        exact ⟨rfl, rfl, rfl, rfl, rfl, hcs, rfl, rfl⟩

theorem move_down_on_key_shell (g : Grid) :
    (move_down_on_key g).game_over = g.game_over ∧
    (move_down_on_key g).width = g.width ∧
    (move_down_on_key g).height = g.height ∧
    (move_down_on_key g).score = g.score ∧
    (move_down_on_key g).speed = g.speed ∧
    (move_down_on_key g).current_shape = g.current_shape ∧
    (move_down_on_key g).next_shape = g.next_shape ∧
    (move_down_on_key g).frame_counter = g.frame_counter := by
  unfold move_down_on_key
  cases hcs : g.current_shape with
  | none => exact ⟨rfl, rfl, rfl, rfl, rfl, hcs, rfl, rfl⟩
  | some sh =>
    dsimp only
    by_cases he : sh.isEmpty = true
    · rw [if_pos he]
      exact ⟨rfl, rfl, rfl, rfl, rfl, hcs, rfl, rfl⟩
    · rw [if_neg he]
      by_cases hc : can_move g sh
          (g.current_shape_location.1 + 1, g.current_shape_location.2) = true
      · rw [if_pos hc, apply_move_eq]
        exact ⟨rfl, rfl, rfl, rfl, rfl, hcs, rfl, rfl⟩
      · rw [if_neg hc]
        exact ⟨rfl, rfl, rfl, rfl, rfl, hcs, rfl, rfl⟩

theorem rotate_shell (g : Grid) :
    (rotate g).game_over = g.game_over ∧
    (rotate g).width = g.width ∧
    (rotate g).height = g.height ∧
    (rotate g).score = g.score ∧
    (rotate g).speed = g.speed ∧
    (rotate g).next_shape = g.next_shape ∧
    (rotate g).frame_counter = g.frame_counter ∧
    (rotate g).current_shape_location = g.current_shape_location := by
  unfold rotate
  cases hcs : g.current_shape with
  | none => exact ⟨rfl, rfl, rfl, rfl, rfl, rfl, rfl, rfl⟩
  | some sh =>
    dsimp only
    by_cases he : sh.isEmpty = true
    · rw [if_pos he]
      exact ⟨rfl, rfl, rfl, rfl, rfl, rfl, rfl, rfl⟩
    · rw [if_neg he]
      by_cases hc : can_move g (rot90 sh) g.current_shape_location = true
      · rw [if_pos hc, rotate_commit_eq]
        exact ⟨rfl, rfl, rfl, rfl, rfl, rfl, rfl, rfl⟩
      · rw [if_neg hc]
        exact ⟨rfl, rfl, rfl, rfl, rfl, rfl, rfl, rfl⟩

theorem can_move_fc (g : Grid) (n : Nat) (shape : Shape) (pos : Int × Int) :
    can_move { g with frame_counter := n } shape pos = can_move g shape pos := rfl

theorem can_move_tick (g : Grid) (n : Nat) (cs : Option Shape) (shape : Shape)
    (pos : Int × Int) :
    can_move { g with frame_counter := n, current_shape := cs } shape pos =
      can_move g shape pos := rfl

theorem update_cells_game_over (g : Grid) (r c : Int) (v : Nat) :
    (update_cells g r c v).game_over = g.game_over := by
  rw [update_cells_eq]

theorem draw_shape_game_over (g : Grid) (shape : Shape) (r c : Int) (v : Nat) :
    (draw_shape g shape r c v).game_over = g.game_over := by
  rw [draw_shape_eq]

/-- Every path of `move_down` either keeps `game_over` or is literally the
`lock_shape` call on the counter-incremented state. -/
theorem move_down_cases (g : Grid) (rand : Shape) :
    (move_down g rand).game_over = g.game_over ∨
    move_down g rand =
      lock_shape { g with frame_counter := g.frame_counter + 1 } rand := by
  unfold move_down
  dsimp only
  cases hcs : g.current_shape with
  | none => left; rfl
  | some sh =>
    dsimp only
    by_cases he : sh.isEmpty = true
    · rw [if_pos he]
      left; rfl
    · rw [if_neg he]
      simp only [can_move_tick g]
      by_cases hg : (g.frame_counter + 1) % 16 = 0
      · rw [if_pos hg]
        by_cases h1 : can_move g sh (g.current_shape_location.1 + g.fall_speed_mult,
            g.current_shape_location.2) = true
        · rw [if_pos h1, apply_move_eq]
          left; rfl
        · rw [if_neg h1]
          by_cases h2 : can_move g sh (g.current_shape_location.1 + 1,
              g.current_shape_location.2) = true
          · rw [if_pos h2, apply_move_eq]
            left; rfl
          · rw [if_neg h2]
            right; rfl
      · rw [if_neg hg, draw_shape_eq]
        left; rfl

/-- Full behaviour of a tick when a (truthy) piece is live. -/
theorem move_down_spec (g : Grid) (rand sh : Shape)
    (hsh : g.current_shape = some sh) (hne : sh.isEmpty = false) :
    ((g.frame_counter + 1) % 16 ≠ 0 →
       move_down g rand =
         draw_shape { g with frame_counter := g.frame_counter + 1 } sh
           g.current_shape_location.1 g.current_shape_location.2 1) ∧
    ((g.frame_counter + 1) % 16 = 0 →
       (can_move g sh (g.current_shape_location.1 + g.fall_speed_mult,
            g.current_shape_location.2) = true →
          move_down g rand =
            apply_move { g with frame_counter := g.frame_counter + 1 } sh
              (g.current_shape_location.1 + g.fall_speed_mult,
               g.current_shape_location.2)) ∧
       (can_move g sh (g.current_shape_location.1 + g.fall_speed_mult,
            g.current_shape_location.2) = false →
        can_move g sh (g.current_shape_location.1 + 1,
            g.current_shape_location.2) = true →
          move_down g rand =
            apply_move { g with frame_counter := g.frame_counter + 1 } sh
              (g.current_shape_location.1 + 1, g.current_shape_location.2)) ∧
       (can_move g sh (g.current_shape_location.1 + g.fall_speed_mult,
            g.current_shape_location.2) = false →
        can_move g sh (g.current_shape_location.1 + 1,
            g.current_shape_location.2) = false →
          move_down g rand =
            lock_shape { g with frame_counter := g.frame_counter + 1 } rand)) := by
  unfold move_down
  dsimp only
  rw [hsh]
  dsimp only
  rw [if_neg (by simp [hne])]
  simp only [can_move_tick g]
  constructor
  · intro hg
    rw [if_neg hg]
  · intro hg
    rw [if_pos hg]
    refine ⟨?_, ?_, ?_⟩
    · intro h1
      rw [if_pos h1]
    · intro h1 h2
      rw [if_neg (by simp [h1]), if_pos h2]
    · intro h1 h2
      rw [if_neg (by simp [h1]), if_neg (by simp [h2])]

theorem lock_pre_eq (g : Grid) (rand sh : Shape)
    (hsh : g.current_shape = some sh) :
    lock_pre g rand =
      { row_is_complete (draw_shape g sh g.current_shape_location.1
          g.current_shape_location.2 2) with
        current_shape := none
        next_shape := rand } := by
  unfold lock_pre
  rw [hsh]

theorem lock_pre_shell (g : Grid) (rand : Shape) :
    (lock_pre g rand).game_over = g.game_over ∧
    (lock_pre g rand).width = g.width ∧
    (lock_pre g rand).height = g.height ∧
    (lock_pre g rand).current_shape = none ∧
    (lock_pre g rand).next_shape = rand := by
  unfold lock_pre
  cases hcs : g.current_shape with
  | none =>
    dsimp only
    exact ⟨(row_is_complete_shell g).1, (row_is_complete_shell g).2.1,
      (row_is_complete_shell g).2.2.1, rfl, rfl⟩
  | some sh =>
    dsimp only
    refine ⟨?_, ?_, ?_, rfl, rfl⟩
    · rw [show ({ row_is_complete (draw_shape g sh g.current_shape_location.1
          g.current_shape_location.2 2) with
          current_shape := none, next_shape := rand } : Grid).game_over =
          (row_is_complete (draw_shape g sh g.current_shape_location.1
            g.current_shape_location.2 2)).game_over from rfl,
        (row_is_complete_shell _).1, draw_shape_eq]
    · rw [show ({ row_is_complete (draw_shape g sh g.current_shape_location.1
          g.current_shape_location.2 2) with
          current_shape := none, next_shape := rand } : Grid).width =
          (row_is_complete (draw_shape g sh g.current_shape_location.1
            g.current_shape_location.2 2)).width from rfl,
        (row_is_complete_shell _).2.1, draw_shape_eq]
    · rw [show ({ row_is_complete (draw_shape g sh g.current_shape_location.1
          g.current_shape_location.2 2) with
          current_shape := none, next_shape := rand } : Grid).height =
          (row_is_complete (draw_shape g sh g.current_shape_location.1
            g.current_shape_location.2 2)).height from rfl,
        (row_is_complete_shell _).2.2.1, draw_shape_eq]

/-- Outcome of a lock: either the promoted next piece is live, or the spawn
was rejected, `game_over` is set and no piece is live. -/
theorem lock_outcome (g : Grid) (rand : Shape) :
    ((lock_shape g rand).current_shape = some g.next_shape ∧
       (lock_shape g rand).game_over = (lock_pre g rand).game_over) ∨
    ((lock_shape g rand).game_over = true ∧
       (lock_shape g rand).current_shape = none) := by
  unfold lock_shape
  rcases new_shape_cases (lock_pre g rand) g.next_shape with ⟨_, h2⟩ | ⟨_, h2⟩
  · left
    rw [h2]
    exact ⟨rfl, rfl⟩
  · right
    rw [h2]
    exact ⟨rfl, rfl⟩

/-- Cell-level description of drawing a coordinate list: inside the board,
a drawn cell holds the written value and every other cell is untouched. -/
theorem cellGL_drawGL {width height : Nat} {gl : List (List Nat)}
    (hd : dimsGL width height gl) (coords : List (Int × Int)) (v : Nat)
    {i j : Nat} (hi : i < height) (hj : j < width) :
    cellGL (drawGL width height gl coords v) i j =
      if ((i : Int), (j : Int)) ∈ coords then v else cellGL gl i j := by
  induction coords generalizing gl with
  | nil => simp [drawGL]
  | cons rc rest ih =>
    show cellGL (drawGL width height (updateGL width height gl rc.1 rc.2 v) rest v) i j = _
    rw [ih (updateGL_dims rc.1 rc.2 v hd)]
    rw [cellGL_updateGL hd rc.1 rc.2 v hi hj]
    by_cases hmem : ((i : Int), (j : Int)) ∈ rest
    · rw [if_pos hmem, if_pos (List.mem_cons_of_mem rc hmem)]
    · rw [if_neg hmem]
      by_cases heq : rc.1 = (i : Int) ∧ rc.2 = (j : Int)
      · rw [if_pos heq]
        have hrc : ((i : Int), (j : Int)) = rc := by
          obtain ⟨a, b⟩ := rc
          simp only at heq
          simp [heq.1.symm, heq.2.symm]
        rw [if_pos (by rw [hrc]; exact List.mem_cons_self rc rest)]
      · rw [if_neg heq]
        rw [if_neg ?_]
        intro hcon
        rcases List.mem_cons.mp hcon with h | h
        · obtain ⟨a, b⟩ := rc
          simp only [Prod.mk.injEq] at h
          exact heq ⟨h.1.symm, h.2.symm⟩
        · exact hmem h

/-- No cell of the grid list is Active. -/
def noActive (gl : List (List Nat)) : Prop :=
  ∀ row ∈ gl, ∀ c ∈ row, c ≠ 1

theorem cells_ne_one_of_noActive {gl : List (List Nat)} (h : noActive gl) :
    ∀ i j : Nat, cellGL gl i j ≠ 1 := by
  intro i j
  unfold cellGL
  by_cases hi : i < gl.length
  · have hm := getD_mem gl i [] hi
    by_cases hj : j < (gl.getD i []).length
    · have hc := getD_mem (gl.getD i []) j 0 hj
      exact h _ hm _ hc
    · rw [List.getD_eq_default _ _ (Nat.le_of_not_lt hj)]
      simp
  · rw [show List.getD gl i [] = [] from
      List.getD_eq_default gl [] (Nat.le_of_not_lt hi)]
    simp

theorem noActive_of_cells {gl : List (List Nat)}
    (h : ∀ i j : Nat, cellGL gl i j ≠ 1) : noActive gl := by
  intro row hrow c hc
  rcases List.mem_iff_getElem.mp hrow with ⟨i, hi, hrow'⟩
  rcases List.mem_iff_getElem.mp hc with ⟨j, hj, hc'⟩
  have : cellGL gl i j = c := by
    unfold cellGL
    rw [List.getD_eq_getElem gl [] hi, hrow',
      List.getD_eq_getElem row 0 hj, hc']
  rw [← this]
  exact h i j

theorem noActive_clear (width k : Nat) (p : List Nat → Bool)
    {gl : List (List Nat)} (h : noActive gl) :
    noActive (List.replicate k (emptyRow width) ++ gl.filter p) := by
  intro row hrow c hc
  rcases List.mem_append.mp hrow with hr | hr
  · rw [List.eq_of_mem_replicate hr] at hc
    have := List.eq_of_mem_replicate hc
    simp [this]
  · exact h _ (List.mem_of_mem_filter hr) _ hc

/-- Complement of `can_move_true_iff`: the oracle answers `false` exactly
when some footprint coordinate is out of bounds or on a Locked cell. -/
theorem can_move_false_iff (g : Grid) (shape : Shape) (new_pos : Int × Int) :
    can_move g shape new_pos = false ↔
      ∃ rc ∈ shape_coords shape new_pos.1 new_pos.2,
        (rc.2 < 0 ∨ (g.width : Int) ≤ rc.2 ∨ rc.1 < 0 ∨ (g.height : Int) ≤ rc.1 ∨
         cellAt g rc.1.toNat rc.2.toNat = 2) := by
  have hbf : can_move g shape new_pos = false ↔
      ¬(can_move g shape new_pos = true) := by
    cases h : can_move g shape new_pos <;> simp
  rw [hbf, can_move_true_iff]
  push_neg
  constructor
  · rintro ⟨rc, hrc, himp⟩
    refine ⟨rc, hrc, ?_⟩
    by_cases hb : 0 ≤ rc.2 ∧ rc.2 < (g.width : Int) ∧ 0 ≤ rc.1 ∧
        rc.1 < (g.height : Int)
    · exact Or.inr (Or.inr (Or.inr (Or.inr (himp hb))))
    · omega
  · rintro ⟨rc, hrc, hdisj⟩
    refine ⟨rc, hrc, fun hb => ?_⟩
    rcases hdisj with h | h | h | h | h
    · omega
    · omega
    · omega
    · omega
    · exact h

theorem init_dims (w h : Nat) (sp : ℚ) (ns : Shape) :
    dims (Grid.init w h sp ns) := by
  constructor
  · simp [Grid.init]
  · intro row hrow
    simp only [Grid.init] at hrow
    rw [List.eq_of_mem_replicate hrow]
    simp [Grid.init]

theorem update_cells_dims (g : Grid) (r c : Int) (v : Nat) (hd : dims g) :
    dims (update_cells g r c v) := by
  rw [update_cells_eq]
  exact updateGL_dims r c v hd

theorem draw_shape_dims (g : Grid) (shape : Shape) (r c : Int) (v : Nat)
    (hd : dims g) : dims (draw_shape g shape r c v) := by
  rw [draw_shape_eq]
  exact drawGL_dims _ v hd

theorem apply_move_dims (g : Grid) (shape : Shape) (p : Int × Int)
    (hd : dims g) : dims (apply_move g shape p) := by
  rw [apply_move_eq]
  exact drawGL_dims _ 1 (drawGL_dims _ 0 hd)

theorem move_side_dims (g : Grid) (side : Int) (hd : dims g) :
    dims (move_side g side) := by
  unfold move_side
  cases hcs : g.current_shape with
  | none => exact hd
  | some sh =>
    dsimp only
    by_cases he : sh.isEmpty = true
    · rw [if_pos he]
      exact hd
    · rw [if_neg he]
      by_cases hc : can_move g sh
          (g.current_shape_location.1, g.current_shape_location.2 + side) = true
      · rw [if_pos hc]
        exact apply_move_dims g sh _ hd
      · rw [if_neg hc]
        exact hd

theorem move_down_on_key_dims (g : Grid) (hd : dims g) :
    dims (move_down_on_key g) := by
  unfold move_down_on_key
  cases hcs : g.current_shape with
  | none => exact hd
  | some sh =>
    dsimp only
    by_cases he : sh.isEmpty = true
    · rw [if_pos he]
      exact hd
    · rw [if_neg he]
      by_cases hc : can_move g sh
          (g.current_shape_location.1 + 1, g.current_shape_location.2) = true
      · rw [if_pos hc]
        exact apply_move_dims g sh _ hd
      · rw [if_neg hc]
        exact hd

theorem rotate_dims (g : Grid) (hd : dims g) : dims (rotate g) := by
  unfold rotate
  cases hcs : g.current_shape with
  | none => exact hd
  | some sh =>
    dsimp only
    by_cases he : sh.isEmpty = true
    · rw [if_pos he]
      exact hd
    · rw [if_neg he]
      by_cases hc : can_move g (rot90 sh) g.current_shape_location = true
      · rw [if_pos hc, rotate_commit_eq]
        exact drawGL_dims _ 1 (drawGL_dims _ 0 hd)
      · rw [if_neg hc]
        exact hd

theorem new_shape_dims (g : Grid) (shape : Shape) (hd : dims g) :
    dims (new_shape g shape) := by
  rcases new_shape_cases g shape with ⟨_, h⟩ | ⟨_, h⟩ <;> rw [h] <;> exact hd

theorem lock_pre_dims (g : Grid) (rand : Shape) (hd : dims g) :
    dims (lock_pre g rand) := by
  unfold lock_pre
  cases hcs : g.current_shape with
  | none =>
    dsimp only
    exact row_is_complete_dims g hd
  | some sh =>
    dsimp only
    exact row_is_complete_dims _ (draw_shape_dims g sh _ _ 2 hd)

theorem lock_shape_dims (g : Grid) (rand : Shape) (hd : dims g) :
    dims (lock_shape g rand) :=
  new_shape_dims _ _ (lock_pre_dims g rand hd)

theorem move_down_dims (g : Grid) (rand : Shape) (hd : dims g) :
    dims (move_down g rand) := by
  unfold move_down
  dsimp only
  cases hcs : g.current_shape with
  | none => exact hd
  | some sh =>
    dsimp only
    by_cases he : sh.isEmpty = true
    · rw [if_pos he]
      exact hd
    · rw [if_neg he]
      simp only [can_move_tick g]
      by_cases hg : (g.frame_counter + 1) % 16 = 0
      · rw [if_pos hg]
        by_cases h1 : can_move g sh
            (g.current_shape_location.1 + g.fall_speed_mult,
             g.current_shape_location.2) = true
        · rw [if_pos h1]
          exact apply_move_dims _ sh _ hd
        · rw [if_neg h1]
          by_cases h2 : can_move g sh
              (g.current_shape_location.1 + 1, g.current_shape_location.2) = true
          · rw [if_pos h2]
            exact apply_move_dims _ sh _ hd
          · rw [if_neg h2]
            exact lock_shape_dims _ rand hd
      · rw [if_neg hg]
        exact draw_shape_dims _ sh _ _ 1 hd

/-- After a lock, assuming every Active cell of the board lay on the locked
piece's footprint, no Active cell remains anywhere on the board. -/
theorem lock_no_active (g : Grid) (rand sh : Shape)
    (hsh : g.current_shape = some sh) (hd : dims g)
    (hact : ∀ i, i < g.grid_list.length →
        ∀ j, j < (g.grid_list.getD i []).length →
        cellAt g i j = 1 →
        ((i : Int), (j : Int)) ∈ shape_coords sh
          g.current_shape_location.1 g.current_shape_location.2) :
    ∀ i j : Nat, cellAt (lock_shape g rand) i j ≠ 1 := by
  have h1 := hd.1
  have hg2 : noActive (drawGL g.width g.height g.grid_list
      (shape_coords sh g.current_shape_location.1 g.current_shape_location.2)
      2) := by
    apply noActive_of_cells
    intro i j
    by_cases hij : i < g.height ∧ j < g.width
    · rw [cellGL_drawGL hd _ 2 hij.1 hij.2]
      by_cases hmem : ((i : Int), (j : Int)) ∈ shape_coords sh
          g.current_shape_location.1 g.current_shape_location.2
      · rw [if_pos hmem]
        simp
      · rw [if_neg hmem]
        intro hc1
        have hil : i < g.grid_list.length := by omega
        have hjl : j < (g.grid_list.getD i []).length := by
          have := hd.2 _ (getD_mem g.grid_list i [] hil)
          omega
        exact hmem (hact i hil j hjl hc1)
    · rw [cellGL_out (drawGL_dims _ 2 hd) (by omega)]
      simp
  have hgrid : (lock_shape g rand).grid_list =
      (row_is_complete (draw_shape g sh g.current_shape_location.1
        g.current_shape_location.2 2)).grid_list := by
    unfold lock_shape
    rw [new_shape_grid, lock_pre_eq g rand sh hsh]
  have hclear : noActive ((row_is_complete (draw_shape g sh
      g.current_shape_location.1 g.current_shape_location.2 2)).grid_list) := by
    rw [row_is_complete_grid]
    have hw : (draw_shape g sh g.current_shape_location.1
        g.current_shape_location.2 2).width = g.width := by
      rw [draw_shape_eq]
    have hgl : (draw_shape g sh g.current_shape_location.1
        g.current_shape_location.2 2).grid_list =
        drawGL g.width g.height g.grid_list
          (shape_coords sh g.current_shape_location.1
            g.current_shape_location.2) 2 := by
      rw [draw_shape_eq]
    rw [hw, hgl]
    exact noActive_clear g.width _ _ hg2
  intro i j
  show cellGL (lock_shape g rand).grid_list i j ≠ 1
  rw [hgrid]
  exact cells_ne_one_of_noActive hclear i j

theorem sum_le_two_mul_length (row : List Nat) (h : ∀ c ∈ row, c ≤ 2) :
    row.sum ≤ 2 * row.length := by
  induction row with
  | nil => simp
  | cons a l ih =>
    simp only [List.sum_cons, List.length_cons]
    have ha := h a (by simp)
    have hl := ih (fun c hc => h c (by simp [hc]))
    omega

theorem sum_eq_two_mul_iff (row : List Nat) :
    (∀ c ∈ row, c ≤ 2) → (row.sum = 2 * row.length ↔ ∀ c ∈ row, c = 2) := by
  induction row with
  | nil =>
    intro _
    simp
  | cons a l ih =>
    intro h
    have ha := h a (by simp)
    have hl : ∀ c ∈ l, c ≤ 2 := fun c hc => h c (by simp [hc])
    have hs := sum_le_two_mul_length l hl
    constructor
    · intro heq c hc
      simp only [List.sum_cons, List.length_cons] at heq
      have ha2 : a = 2 := by omega
      rcases List.mem_cons.mp hc with rfl | hc
      · exact ha2
      · have hls : l.sum = 2 * l.length := by omega
        exact (ih hl).mp hls c hc
    · intro hall
      simp only [List.sum_cons, List.length_cons]
      have hls : l.sum = 2 * l.length :=
        (ih hl).mpr (fun c hc => hall c (by simp [hc]))
      have ha2 := hall a (by simp)
      omega

/-- Total number of non-Empty cells of a grid list. -/
def nonEmptyCells (gl : List (List Nat)) : Nat :=
  (gl.map (fun r => r.countP (fun c => c != 0))).sum

theorem countP_emptyRow (width : Nat) :
    (emptyRow width).countP (fun c => c != 0) = 0 := by
  induction width with
  | zero => rfl
  | succ n ih =>
    simp only [emptyRow, List.replicate_succ, List.countP_cons] at *
    simp [ih]

theorem nonEmptyCells_append_replicate (k width : Nat) (X : List (List Nat)) :
    nonEmptyCells (List.replicate k (emptyRow width) ++ X) = nonEmptyCells X := by
  unfold nonEmptyCells
  rw [List.map_append, List.sum_append, List.map_replicate, countP_emptyRow]
  simp

theorem lock_shape_wh (g : Grid) (rand : Shape) :
    (lock_shape g rand).width = g.width ∧
    (lock_shape g rand).height = g.height := by
  unfold lock_shape
  constructor
  · rw [(new_shape_shell _ _).1, (lock_pre_shell g rand).2.1]
  · rw [(new_shape_shell _ _).2.1, (lock_pre_shell g rand).2.2.1]

theorem move_down_wh (g : Grid) (rand : Shape) :
    (move_down g rand).width = g.width ∧
    (move_down g rand).height = g.height := by
  unfold move_down
  dsimp only
  cases hcs : g.current_shape with
  | none => exact ⟨rfl, rfl⟩
  | some sh =>
    dsimp only
    by_cases he : sh.isEmpty = true
    · rw [if_pos he]
      exact ⟨rfl, rfl⟩
    · rw [if_neg he]
      simp only [can_move_tick g]
      by_cases hg : (g.frame_counter + 1) % 16 = 0
      · rw [if_pos hg]
        by_cases h1 : can_move g sh
            (g.current_shape_location.1 + g.fall_speed_mult,
             g.current_shape_location.2) = true
        · rw [if_pos h1, apply_move_eq]
          exact ⟨rfl, rfl⟩
        · rw [if_neg h1]
          by_cases h2 : can_move g sh
              (g.current_shape_location.1 + 1, g.current_shape_location.2) = true
          · rw [if_pos h2, apply_move_eq]
            exact ⟨rfl, rfl⟩
          · rw [if_neg h2]
            exact lock_shape_wh _ rand
      · rw [if_neg hg, draw_shape_eq]
        exact ⟨rfl, rfl⟩

/-- Concrete 3-wide board containing the full-but-Active row `[1,2,2]`. -/
def gC2 : Grid :=
  { game_over := false, score := 0, fall_speed_mult := 1, frame_counter := 0,
    width := 3, height := 2, speed := 1,
    grid_list := [[1, 2, 2], [0, 0, 0]],
    current_shape := none, next_shape := [[true]],
    current_shape_location := (0, 0) }

/-- Concrete 2-wide board with exactly one complete (all-Locked) row. -/
def gC3 : Grid :=
  { game_over := false, score := 7, fall_speed_mult := 1, frame_counter := 0,
    width := 2, height := 3, speed := 1,
    grid_list := [[0, 0], [2, 2], [1, 0]],
    current_shape := none, next_shape := [[true]],
    current_shape_location := (0, 0) }

/-- C1: for every piece mask and candidate anchor, `can_move` returns `false`
iff some occupied mask cell maps to a board coordinate outside
`[0,width) × [0,height)` or onto a cell holding the Locked value 2; a
placement all of whose occupied cells land in bounds on an Empty (0) or
Active (1) cell is accepted.  `can_move` is a function from `Grid` to `Bool`
in this embedding, so it mutates nothing. -/
theorem C1_can_move_characterization (g : Grid) (shape : Shape)
    (new_pos : Int × Int) :
    (can_move g shape new_pos = false ↔
      ∃ rc ∈ shape_coords shape new_pos.1 new_pos.2,
        (rc.2 < 0 ∨ (g.width : Int) ≤ rc.2 ∨ rc.1 < 0 ∨
         (g.height : Int) ≤ rc.1 ∨ cellAt g rc.1.toNat rc.2.toNat = 2)) ∧
    (can_move g shape new_pos = true ↔
      ∀ rc ∈ shape_coords shape new_pos.1 new_pos.2,
        (0 ≤ rc.2 ∧ rc.2 < (g.width : Int) ∧ 0 ≤ rc.1 ∧
         rc.1 < (g.height : Int)) ∧ cellAt g rc.1.toNat rc.2.toNat ≠ 2) ∧
    ((∀ rc ∈ shape_coords shape new_pos.1 new_pos.2,
        (0 ≤ rc.2 ∧ rc.2 < (g.width : Int) ∧ 0 ≤ rc.1 ∧
         rc.1 < (g.height : Int)) ∧
        (cellAt g rc.1.toNat rc.2.toNat = 0 ∨
         cellAt g rc.1.toNat rc.2.toNat = 1)) →
      can_move g shape new_pos = true) := by
  refine ⟨can_move_false_iff g shape new_pos,
    can_move_true_iff g shape new_pos, ?_⟩
  intro h
  rw [can_move_true_iff]
  intro rc hrc
  have := h rc hrc
  exact ⟨this.1, by omega⟩

/-- C1 witness: on an empty 2 × 2 board a one-cell mask is accepted at (0,0)
and rejected at the out-of-bounds anchor (2,0). -/
theorem C1_can_move_characterization_witness :
    can_move (Grid.init 2 2 1 [[true]]) [[true]] (0, 0) = true ∧
    can_move (Grid.init 2 2 1 [[true]]) [[true]] (2, 0) = false := by
  constructor
  · exact (C1_can_move_characterization (Grid.init 2 2 1 [[true]])
      [[true]] (0, 0)).2.2 (by decide)
  · exact (C1_can_move_characterization (Grid.init 2 2 1 [[true]])
      [[true]] (2, 0)).1.mpr (by decide)

/-- C2: the clearing scan's completeness test is `sum(row) == width * 2`;
for a row of the board's width whose cells are all in `{0,1,2}`, it holds
iff every cell is Locked (2), so a row containing an Active (1) cell is
never complete and is never removed by the scan. -/
theorem C2_row_complete (g : Grid) (row : List Nat)
    (hlen : row.length = g.width) (hcells : ∀ c ∈ row, c ≤ 2) :
    (isCompleteB g.width row = true ↔ ∀ c ∈ row, c = 2) ∧
    ((∃ c ∈ row, c = 1) →
       isCompleteB g.width row = false ∧
       (row ∈ g.grid_list → row ∈ (row_is_complete g).grid_list)) := by
  have hiff : isCompleteB g.width row = true ↔ ∀ c ∈ row, c = 2 := by
    unfold isCompleteB
    rw [beq_iff_eq]
    rw [show g.width * 2 = 2 * row.length by omega]
    exact sum_eq_two_mul_iff row hcells
  refine ⟨hiff, ?_⟩
  rintro ⟨c, hc, rfl⟩
  have hfalse : isCompleteB g.width row = false := by
    rcases h : isCompleteB g.width row with _ | _
    · rfl
    · have := hiff.mp h _ hc
      omega
  refine ⟨hfalse, fun hmem => ?_⟩
  rw [row_is_complete_grid]
  refine List.mem_append.mpr (Or.inr ?_)
  exact List.mem_filter.mpr ⟨hmem, by simp [hfalse]⟩

/-- C2 witness: on a 3-wide board the row `[1,2,2]` (full but containing an
Active cell) is not complete and survives the clearing pass. -/
theorem C2_row_complete_witness :
    isCompleteB gC2.width [1, 2, 2] = false ∧
    [1, 2, 2] ∈ (row_is_complete gC2).grid_list := by
  have h := (C2_row_complete gC2 [1, 2, 2] (by decide) (by decide)).2
    ⟨1, by decide, rfl⟩
  exact ⟨h.1, h.2 (by decide)⟩

/-- C3: with `k` the number of complete rows found in one pass, a lock-time
clear adds exactly 40/100/300/1200 points for `k` = 1/2/3/4 and multiplies
the speed by 0.95 exactly once; when `k = 0` score and speed are
unchanged. -/
theorem C3_scoring (g : Grid) :
    (g.grid_list.countP (fun r => isCompleteB g.width r) = 0 →
       (row_is_complete g).score = g.score ∧
       (row_is_complete g).speed = g.speed) ∧
    (g.grid_list.countP (fun r => isCompleteB g.width r) = 1 →
       (row_is_complete g).score = g.score + 40) ∧
    (g.grid_list.countP (fun r => isCompleteB g.width r) = 2 →
       (row_is_complete g).score = g.score + 100) ∧
    (g.grid_list.countP (fun r => isCompleteB g.width r) = 3 →
       (row_is_complete g).score = g.score + 300) ∧
    (g.grid_list.countP (fun r => isCompleteB g.width r) = 4 →
       (row_is_complete g).score = g.score + 1200) ∧
    (1 ≤ g.grid_list.countP (fun r => isCompleteB g.width r) →
     g.grid_list.countP (fun r => isCompleteB g.width r) ≤ 4 →
       (row_is_complete g).speed = g.speed * (0.95 : ℚ)) := by
  refine ⟨fun h0 => ⟨?_, ?_⟩, fun h1 => ?_, fun h2 => ?_, fun h3 => ?_,
    fun h4 => ?_, fun hk1 hk4 => ?_⟩
  · rw [row_is_complete_score, if_neg (by omega)]
  · rw [row_is_complete_speed, if_neg (by omega)]
  · rw [row_is_complete_score, if_pos (by omega), h1]
    rfl
  · rw [row_is_complete_score, if_pos (by omega), h2]
    rfl
  · rw [row_is_complete_score, if_pos (by omega), h3]
    rfl
  · rw [row_is_complete_score, if_pos (by omega), h4]
    rfl
  · rw [row_is_complete_speed, if_pos (by omega)]

/-- C3 witness: a board with exactly one complete row grants 40 points and
multiplies the speed by 0.95 once. -/
theorem C3_scoring_witness :
    (row_is_complete gC3).score = gC3.score + 40 ∧
    (row_is_complete gC3).speed = gC3.speed * (0.95 : ℚ) := by
  have h := C3_scoring gC3
  exact ⟨h.2.1 (by decide), h.2.2.2.2.2 (by decide) (by decide)⟩

/-- C4: one invocation of the clearing pass removes exactly the complete
rows, prepends one all-Empty row per removed row, keeps the remaining rows
in order, and preserves the total non-Empty cell count of the kept rows. -/
theorem C4_line_clear (g : Grid) :
    (row_is_complete g).grid_list =
      List.replicate (g.grid_list.countP (fun r => isCompleteB g.width r))
          (emptyRow g.width) ++
        g.grid_list.filter (fun r => !isCompleteB g.width r) ∧
    nonEmptyCells ((row_is_complete g).grid_list) =
      nonEmptyCells (g.grid_list.filter (fun r => !isCompleteB g.width r)) := by
  refine ⟨row_is_complete_grid g, ?_⟩
  rw [row_is_complete_grid g]
  exact nonEmptyCells_append_replicate _ _ _

/-- Fully Locked 2 × 2 board: any spawn is rejected. -/
def gC5 : Grid :=
  { game_over := false, score := 0, fall_speed_mult := 1, frame_counter := 0,
    width := 2, height := 2, speed := 1,
    grid_list := [[2, 2], [2, 2]],
    current_shape := none, next_shape := [[true]],
    current_shape_location := (0, 0) }

/-- Empty 2 × 2 board: any one-cell spawn succeeds. -/
def gEmpty22 : Grid := Grid.init 2 2 1 [[true]]

/-- Board one gated tick away from a lock whose spawn is rejected (the
spawn cell `(0,1)` is Locked), so this tick flips `game_over`. -/
def gLock : Grid :=
  { game_over := false, score := 0, fall_speed_mult := 1, frame_counter := 15,
    width := 2, height := 2, speed := 1,
    grid_list := [[0, 2], [1, 0]],
    current_shape := some [[true]], next_shape := [[true]],
    current_shape_location := (1, 0) }

/-- C5: spawn puts the piece at anchor `(0, width // 2 - mask_width // 2)`;
an oracle rejection there sets `game_over` and clears the piece, an
acceptance installs the piece and leaves `game_over` alone; no other
operation changes `game_over` — the movement/rotation/draw/clear operations
preserve it, `lock_shape` is literally a `new_shape` call on the post-clear
state, and a `move_down` that changes `game_over` is literally its
`lock_shape` call. -/
theorem C5_spawn_game_over (g : Grid) (shape rand : Shape) (side r c : Int)
    (v : Nat) :
    (new_shape g shape).current_shape_location = spawn_anchor g shape ∧
    spawn_anchor g shape =
      (0, (g.width : Int) / 2 - (((shape.headD []).length : Int)) / 2) ∧
    (can_move g shape (spawn_anchor g shape) = false →
       (new_shape g shape).game_over = true ∧
       (new_shape g shape).current_shape = none) ∧
    (can_move g shape (spawn_anchor g shape) = true →
       (new_shape g shape).current_shape = some shape ∧
       (new_shape g shape).game_over = g.game_over) ∧
    (move_side g side).game_over = g.game_over ∧
    (rotate g).game_over = g.game_over ∧
    (move_down_on_key g).game_over = g.game_over ∧
    (row_is_complete g).game_over = g.game_over ∧
    (update_cells g r c v).game_over = g.game_over ∧
    (draw_shape g shape r c v).game_over = g.game_over ∧
    lock_shape g rand = new_shape (lock_pre g rand) g.next_shape ∧
    (lock_pre g rand).game_over = g.game_over ∧
    ((move_down g rand).game_over ≠ g.game_over →
       move_down g rand =
         lock_shape { g with frame_counter := g.frame_counter + 1 } rand) := by
  refine ⟨(new_shape_shell g shape).2.2.2.2.2.2.2, rfl, ?_, ?_,
    (move_side_shell g side).1, (rotate_shell g).1,
    (move_down_on_key_shell g).1, (row_is_complete_shell g).1,
    update_cells_game_over g r c v, draw_shape_game_over g shape r c v,
    rfl, (lock_pre_shell g rand).1, ?_⟩
  · intro hrej
    rcases new_shape_cases g shape with ⟨hacc, _⟩ | ⟨_, heq⟩
    · rw [hacc] at hrej
      cases hrej
    · rw [heq]
      exact ⟨rfl, rfl⟩
  · intro hacc
    rcases new_shape_cases g shape with ⟨_, heq⟩ | ⟨hrej, _⟩
    · rw [heq]
      exact ⟨rfl, rfl⟩
    · rw [hacc] at hrej
      cases hrej
  · intro hflip
    rcases move_down_cases g rand with hpres | hlock
    · exact absurd hpres hflip
    · exact hlock

/-- C5 witness: spawning into the fully Locked board sets `game_over` and
leaves no piece; spawning into the empty board installs the piece with
`game_over` unchanged; the tick that locks `gLock` flips `game_over` through
exactly the `lock_shape` call. -/
theorem C5_spawn_game_over_witness :
    ((new_shape gC5 [[true]]).game_over = true ∧
     (new_shape gC5 [[true]]).current_shape = none) ∧
    ((new_shape gEmpty22 [[true]]).current_shape = some [[true]] ∧
     (new_shape gEmpty22 [[true]]).game_over = gEmpty22.game_over) ∧
    move_down gLock [[true]] =
      lock_shape { gLock with frame_counter := gLock.frame_counter + 1 }
        [[true]] := by
  have h1 := C5_spawn_game_over gC5 [[true]] [[true]] 0 0 0 0
  have h2 := C5_spawn_game_over gEmpty22 [[true]] [[true]] 0 0 0 0
  have h3 := C5_spawn_game_over gLock [[true]] [[true]] 0 0 0 0
  refine ⟨h1.2.2.1 (by decide), h2.2.2.2.1 (by decide),
    h3.2.2.2.2.2.2.2.2.2.2.2.2 (by decide)⟩

/-- Board with a two-cell horizontal piece at anchor (5,5): moving right is
blocked by the Locked cell in column 7 and rotating is blocked by the Locked
cell at (6,5). -/
def gC6 : Grid :=
  { game_over := false, score := 0, fall_speed_mult := 1, frame_counter := 0,
    width := 8, height := 8, speed := 1,
    grid_list := [[0,0,0,0,0,0,0,0],[0,0,0,0,0,0,0,0],[0,0,0,0,0,0,0,0],
      [0,0,0,0,0,0,0,0],[0,0,0,0,0,0,0,0],[0,0,0,0,0,1,1,2],
      [0,0,0,0,0,2,0,0],[0,0,0,0,0,0,0,0]],
    current_shape := some [[true, true]], next_shape := [[true]],
    current_shape_location := (5, 5) }

/-- C6: when the oracle rejects a sideways move or a rotation, the whole
grid state — every board cell, the active mask and the anchor — is exactly
unchanged. -/
theorem C6_blocked_noop (g : Grid) (sh : Shape) (side : Int)
    (hsh : g.current_shape = some sh) :
    (can_move g sh (g.current_shape_location.1,
        g.current_shape_location.2 + side) = false →
       move_side g side = g) ∧
    (can_move g (rot90 sh) g.current_shape_location = false →
       rotate g = g) :=
  ⟨fun h => move_side_blocked g sh side hsh h,
   fun h => rotate_blocked g sh hsh h⟩

/-- C6 witness: at anchor (5,5) with Locked cells at (5,7) and (6,5), both
the right move and the rotation are rejected and the state is unchanged. -/
theorem C6_blocked_noop_witness :
    move_side gC6 1 = gC6 ∧ rotate gC6 = gC6 := by
  have h := C6_blocked_noop gC6 [[true, true]] 1 rfl
  exact ⟨h.1 (by decide), h.2 (by decide)⟩

/-- Piece on an empty 2 × 2 board, frame counter 0: next tick is not
gated. -/
def gC7 : Grid :=
  { game_over := false, score := 0, fall_speed_mult := 1, frame_counter := 0,
    width := 2, height := 2, speed := 1,
    grid_list := [[0, 0], [0, 0]],
    current_shape := some [[true]], next_shape := [[true]],
    current_shape_location := (0, 0) }

/-- Piece on an empty 2 × 2 board, frame counter 15: next tick is gated and
the downward move is free. -/
def gC7b : Grid :=
  { gC7 with frame_counter := 15 }

/-- C7: a tick whose incremented frame counter is not a multiple of 16 never
moves the anchor; a gated tick commits the `fall_speed_mult`-row move when
the oracle allows it, falls back to the single-row move otherwise, and
invokes the lock only when that is also blocked. -/
theorem C7_tick (g : Grid) (rand sh : Shape)
    (hsh : g.current_shape = some sh) (hne : sh.isEmpty = false) :
    ((g.frame_counter + 1) % 16 ≠ 0 →
       (move_down g rand).current_shape_location =
         g.current_shape_location) ∧
    ((g.frame_counter + 1) % 16 = 0 →
       (can_move g sh (g.current_shape_location.1 + g.fall_speed_mult,
            g.current_shape_location.2) = true →
          move_down g rand =
            apply_move { g with frame_counter := g.frame_counter + 1 } sh
              (g.current_shape_location.1 + g.fall_speed_mult,
               g.current_shape_location.2)) ∧
       (can_move g sh (g.current_shape_location.1 + g.fall_speed_mult,
            g.current_shape_location.2) = false →
        can_move g sh (g.current_shape_location.1 + 1,
            g.current_shape_location.2) = true →
          move_down g rand =
            apply_move { g with frame_counter := g.frame_counter + 1 } sh
              (g.current_shape_location.1 + 1,
               g.current_shape_location.2)) ∧
       (can_move g sh (g.current_shape_location.1 + g.fall_speed_mult,
            g.current_shape_location.2) = false →
        can_move g sh (g.current_shape_location.1 + 1,
            g.current_shape_location.2) = false →
          move_down g rand =
            lock_shape { g with frame_counter := g.frame_counter + 1 }
              rand)) := by
  have hspec := move_down_spec g rand sh hsh hne
  refine ⟨fun hg => ?_, fun hg => (hspec.2 hg)⟩
  rw [hspec.1 hg, draw_shape_eq]

/-- C7 witness: from frame counter 0 the tick does not move the anchor; from
frame counter 15 the gated tick is exactly the committed one-row move. -/
theorem C7_tick_witness :
    (move_down gC7 [[true]]).current_shape_location =
      gC7.current_shape_location ∧
    move_down gC7b [[true]] =
      apply_move { gC7b with frame_counter := gC7b.frame_counter + 1 }
        [[true]]
        (gC7b.current_shape_location.1 + gC7b.fall_speed_mult,
         gC7b.current_shape_location.2) := by
  have h1 := C7_tick gC7 [[true]] [[true]] rfl rfl
  have h2 := C7_tick gC7b [[true]] [[true]] rfl rfl
  exact ⟨h1.1 (by decide), (h2.2 (by decide)).1 (by decide)⟩

/-- Board whose Active cells are exactly the footprint of the live piece
`[[true,true]]` at (0,0); locking it completes row 0. -/
def gC8 : Grid :=
  { game_over := false, score := 0, fall_speed_mult := 1, frame_counter := 0,
    width := 2, height := 2, speed := 1,
    grid_list := [[1, 1], [0, 2]],
    current_shape := some [[true, true]], next_shape := [[true]],
    current_shape_location := (0, 0) }

/-- C8: after a lock (whose Active cells all lay on the locked piece's
footprint) no board cell holds the Active value 1, and either the promoted
next piece is live or `game_over` is set with no live piece.  At most one
piece is active at any time by construction: `current_shape` is a single
optional mask. -/
theorem C8_lock_invariant (g : Grid) (rand sh : Shape)
    (hsh : g.current_shape = some sh) (hd : dims g)
    (hact : ∀ i, i < g.grid_list.length →
        ∀ j, j < (g.grid_list.getD i []).length →
        cellAt g i j = 1 →
        ((i : Int), (j : Int)) ∈ shape_coords sh
          g.current_shape_location.1 g.current_shape_location.2) :
    (∀ i j : Nat, cellAt (lock_shape g rand) i j ≠ 1) ∧
    ((lock_shape g rand).current_shape = some g.next_shape ∨
       ((lock_shape g rand).game_over = true ∧
        (lock_shape g rand).current_shape = none)) := by
  refine ⟨lock_no_active g rand sh hsh hd hact, ?_⟩
  rcases lock_outcome g rand with ⟨h1, _⟩ | h
  · exact Or.inl h1
  · exact Or.inr h

/-- C8 witness: locking the piece of `gC8` leaves no Active cell and spawns
the next piece. -/
theorem C8_lock_invariant_witness :
    cellAt (lock_shape gC8 [[true]]) 0 0 ≠ 1 ∧
    ((lock_shape gC8 [[true]]).current_shape = some gC8.next_shape ∨
       ((lock_shape gC8 [[true]]).game_over = true ∧
        (lock_shape gC8 [[true]]).current_shape = none)) := by
  have hact : ∀ i, i < gC8.grid_list.length →
      ∀ j, j < (gC8.grid_list.getD i []).length →
      cellAt gC8 i j = 1 →
      ((i : Int), (j : Int)) ∈ shape_coords [[true, true]]
        gC8.current_shape_location.1 gC8.current_shape_location.2 := by
    have hor : ∀ i, i < gC8.grid_list.length →
        ∀ j, j < (gC8.grid_list.getD i []).length →
        (cellAt gC8 i j ≠ 1 ∨
          ((i : Int), (j : Int)) ∈ shape_coords [[true, true]]
            gC8.current_shape_location.1 gC8.current_shape_location.2) := by
      decide
    intro i hi j hj hc
    exact (hor i hi j hj).resolve_left (fun hne => hne hc)
  have h := C8_lock_invariant gC8 [[true]] [[true, true]] rfl
    ⟨by decide, by decide⟩ hact
  exact ⟨h.1 0 0, h.2⟩

/-- C9: the constructor builds a `height × width` board and every operation
preserves both the board dimensions and the `width`/`height` fields. -/
theorem C9_dims_preserved (g : Grid) (shape rand : Shape) (side r c : Int)
    (v w h : Nat) (sp : ℚ) (ns : Shape) (hd : dims g) :
    dims (Grid.init w h sp ns) ∧
    dims (update_cells g r c v) ∧
    (update_cells g r c v).width = g.width ∧
    (update_cells g r c v).height = g.height ∧
    dims (draw_shape g shape r c v) ∧
    (draw_shape g shape r c v).width = g.width ∧
    (draw_shape g shape r c v).height = g.height ∧
    dims (move_side g side) ∧
    (move_side g side).width = g.width ∧
    (move_side g side).height = g.height ∧
    dims (rotate g) ∧
    (rotate g).width = g.width ∧
    (rotate g).height = g.height ∧
    dims (move_down_on_key g) ∧
    (move_down_on_key g).width = g.width ∧
    (move_down_on_key g).height = g.height ∧
    dims (move_down g rand) ∧
    (move_down g rand).width = g.width ∧
    (move_down g rand).height = g.height ∧
    dims (new_shape g shape) ∧
    (new_shape g shape).width = g.width ∧
    (new_shape g shape).height = g.height ∧
    dims (row_is_complete g) ∧
    (row_is_complete g).width = g.width ∧
    (row_is_complete g).height = g.height ∧
    dims (lock_shape g rand) ∧
    (lock_shape g rand).width = g.width ∧
    (lock_shape g rand).height = g.height := by
  refine ⟨init_dims w h sp ns,
    update_cells_dims g r c v hd, by rw [update_cells_eq], by rw [update_cells_eq],
    draw_shape_dims g shape r c v hd, by rw [draw_shape_eq], by rw [draw_shape_eq],
    move_side_dims g side hd, (move_side_shell g side).2.1,
    (move_side_shell g side).2.2.1,
    rotate_dims g hd, (rotate_shell g).2.1, (rotate_shell g).2.2.1,
    move_down_on_key_dims g hd, (move_down_on_key_shell g).2.1,
    (move_down_on_key_shell g).2.2.1,
    move_down_dims g rand hd, (move_down_wh g rand).1, (move_down_wh g rand).2,
    new_shape_dims g shape hd, (new_shape_shell g shape).1,
    (new_shape_shell g shape).2.1,
    row_is_complete_dims g hd, (row_is_complete_shell g).2.1,
    (row_is_complete_shell g).2.2.1,
    lock_shape_dims g rand hd, (lock_shape_wh g rand).1,
    (lock_shape_wh g rand).2⟩

/-- C9 witness: dimensions survive a tick-and-lock of `gLock` and a fresh
construction. -/
theorem C9_dims_preserved_witness :
    dims (Grid.init 3 4 1 [[true]]) ∧
    dims (move_down gLock [[true]]) ∧
    (move_down gLock [[true]]).width = gLock.width ∧
    (move_down gLock [[true]]).height = gLock.height := by
  have h := C9_dims_preserved gLock [[true]] [[true]] 0 0 0 0 3 4 1 [[true]]
    ⟨by decide, by decide⟩
  exact ⟨h.1, h.2.2.2.2.2.2.2.2.2.2.2.2.2.2.2.2.1,
    h.2.2.2.2.2.2.2.2.2.2.2.2.2.2.2.2.2.1,
    h.2.2.2.2.2.2.2.2.2.2.2.2.2.2.2.2.2.2.1⟩

/-- Board whose Active cells are exactly the live piece's footprint at
(1,0); locking clears the completed middle row and spawns the next piece
without drawing it. -/
def gC10 : Grid :=
  { game_over := false, score := 0, fall_speed_mult := 1, frame_counter := 0,
    width := 2, height := 3, speed := 1,
    grid_list := [[0, 0], [1, 1], [0, 2]],
    current_shape := some [[true, true]], next_shape := [[true]],
    current_shape_location := (1, 0) }

/-- C10: spawning never writes to the board — `new_shape` leaves `grid_list`
untouched for every state and mask — so immediately after a lock the board
holds no Active cell even when a freshly spawned piece is live; the new
piece exists only in the active-piece state until a later movement or tick
draws it. -/
theorem C10_spawn_writes_nothing (g : Grid) (rand sh : Shape)
    (hsh : g.current_shape = some sh) (hd : dims g)
    (hact : ∀ i, i < g.grid_list.length →
        ∀ j, j < (g.grid_list.getD i []).length →
        cellAt g i j = 1 →
        ((i : Int), (j : Int)) ∈ shape_coords sh
          g.current_shape_location.1 g.current_shape_location.2) :
    (∀ (gq : Grid) (s : Shape), (new_shape gq s).grid_list = gq.grid_list) ∧
    (∀ i j : Nat, cellAt (lock_shape g rand) i j ≠ 1) :=
  ⟨fun gq s => new_shape_grid gq s, lock_no_active g rand sh hsh hd hact⟩

/-- C10 witness: locking the piece of `gC10` spawns the next piece yet
leaves no Active cell on the board; spawning on `gC10` itself writes
nothing. -/
theorem C10_spawn_writes_nothing_witness :
    (new_shape gC10 [[true]]).grid_list = gC10.grid_list ∧
    cellAt (lock_shape gC10 [[true]]) 1 0 ≠ 1 := by
  have hact : ∀ i, i < gC10.grid_list.length →
      ∀ j, j < (gC10.grid_list.getD i []).length →
      cellAt gC10 i j = 1 →
      ((i : Int), (j : Int)) ∈ shape_coords [[true, true]]
        gC10.current_shape_location.1 gC10.current_shape_location.2 := by
    have hor : ∀ i, i < gC10.grid_list.length →
        ∀ j, j < (gC10.grid_list.getD i []).length →
        (cellAt gC10 i j ≠ 1 ∨
          ((i : Int), (j : Int)) ∈ shape_coords [[true, true]]
            gC10.current_shape_location.1 gC10.current_shape_location.2) := by
      decide
    intro i hi j hj hc
    exact (hor i hi j hj).resolve_left (fun hne => hne hc)
  have h := C10_spawn_writes_nothing gC10 [[true]] [[true, true]] rfl
    ⟨by decide, by decide⟩ hact
  exact ⟨h.1 gC10 [[true]], h.2 1 0⟩

end Tetris
